import Mathlib

/-!
Shallow embedding of the hcsr04_async HC-SR04 ultrasonic sensor driver
(src/lib.rs) together with proofs about its measurement protocol and its
numeric model.

Modelling conventions:
* f64 values are idealized as `Option ℝ`: `some x` is a finite value and
  `none` is NaN.  Arithmetic propagates NaN and the square root of a
  negative argument is NaN, as in IEEE-754; rounding and infinities are
  abstracted away.
* Time is measured in whole microseconds from the start of `measure`.
  The echo line is an arbitrary function `levels : Nat → Bool` giving the
  line level at each microsecond.
* `with_timeout(Duration::from_secs(2), ...)` combined with the
  embedded-hal `wait_for_high` / `wait_for_low` level waits (which resolve
  immediately when the pin already has the requested level) is embedded as
  `findWithin p start budget`: the offset of the first instant within the
  budget at which the pin predicate holds, or `none` on timeout.
* `measure` returns both its result and a trace of the externally visible
  actions it performed, so that ordering and invocation claims are
  statable.  The `unwrap` panic on a failed echo-pin read is the
  distinguished result `MeasureResult.panics`.
-/

namespace Hcsr04

/-- Idealized f64: `some x` is a finite value, `none` is NaN. -/
abbrev F64 := Option ℝ

/-- f64 addition, NaN-propagating. -/
def fAdd : F64 → F64 → F64
  | some a, some b => some (a + b)
  | _, _ => none

/-- f64 subtraction, NaN-propagating. -/
def fSub : F64 → F64 → F64
  | some a, some b => some (a - b)
  | _, _ => none

/-- f64 multiplication, NaN-propagating. -/
def fMul : F64 → F64 → F64
  | some a, some b => some (a * b)
  | _, _ => none

/-- f64 division, NaN-propagating.  (The driver only ever divides by the
nonzero constants 9, 273.15, 2, 2.54 and 1000000.) -/
noncomputable def fDiv : F64 → F64 → F64
  | some a, some b => some (a / b)
  | _, _ => none

/-- f64 square root: NaN on a negative argument, as `libm::sqrt`. -/
noncomputable def fSqrt : F64 → F64
  | some a => if a < 0 then none else some (Real.sqrt a)
  | none => none

/-- IEEE-style comparison on the f64 model: true only between non-NaN
values that compare. -/
def fLe : F64 → F64 → Prop
  | some a, some b => a ≤ b
  | _, _ => False

/-- The distance unit to use for measurements (src/lib.rs). -/
inductive DistanceUnit
  | Centimeters
  | Inches

/-- The temperature unit to use for measurements (src/lib.rs). -/
inductive TemperatureUnit
  | Celsius
  | Fahrenheit

/-- The configuration for the sensor (src/lib.rs). -/
structure Config where
  distance_unit : DistanceUnit
  temperature_unit : TemperatureUnit

/-- Speed of sound in m/s adjusted for temperature
(Hcsr04::speed_of_sound_temperature_adjusted, src/lib.rs lines 64-74). -/
noncomputable def speed_of_sound_temperature_adjusted
    (cfg : Config) (temperature : F64) : F64 :=
  let temp : F64 :=
    match cfg.temperature_unit with
    | TemperatureUnit.Celsius => temperature
    | TemperatureUnit.Fahrenheit =>
        fDiv (fMul (fSub temperature (some 32)) (some 5)) (some 9)
  fMul (some 331.5) (fSqrt (fAdd (some 1) (fDiv temp (some 273.15))))

/-- Distance from speed of sound and pulse duration
(Hcsr04::distance, src/lib.rs lines 79-86). -/
noncomputable def distance (cfg : Config) (speed_of_sound duration_secs : F64) :
    F64 :=
  let d := fDiv (fMul (fMul speed_of_sound (some 100)) duration_secs) (some 2)
  match cfg.distance_unit with
  | DistanceUnit.Centimeters => d
  | DistanceUnit.Inches => fDiv d (some 2.54)

/-- Timeout budget of each echo wait: 2 seconds in microseconds. -/
def timeoutUs : Nat := 2000000

/-- Offset of the first instant `start + d` with `d ≤ budget` at which `p`
holds, or `none` if there is none: the embedding of
`with_timeout(2s, level wait)`. -/
def findWithin (p : Nat → Bool) : Nat → Nat → Option Nat
  | s, 0 => if p s then some 0 else none
  | s, b + 1 => if p s then some 0 else (findWithin p (s + 1) b).map (· + 1)

/-- Behaviour of the hardware environment during one call to `measure`:
the result of the initial `is_high` read, the echo line level at each
microsecond, and whether the trigger pin drive calls fail. -/
structure Env where
  echoRead : Except Unit Bool
  levels : Nat → Bool
  setHighFails : Bool
  setLowFails : Bool

/-- Externally visible actions of one `measure` call, in order. -/
inductive Ev
  | readEcho
  | setHigh
  | delay10
  | setLow
  | riseOk
  | riseTimeout
  | fallOk
  | fallTimeout
  | distCalc
deriving DecidableEq

/-- Result of one `measure` call: the `unwrap` panic, an error string, or
a distance value. -/
inductive MeasureResult
  | panics
  | err (msg : String)
  | ok (dist : F64)

/-- One call to Hcsr04::measure (src/lib.rs lines 91-120).  The trigger
pulse occupies microseconds 0 to 10; the rise wait starts at instant 10;
the fall wait starts when the rise wait resolves.  Trigger drive failures
are discarded by the source (.ok()) and hence never consulted. -/
noncomputable def measure (cfg : Config) (env : Env) (temperature : F64) :
    List Ev × MeasureResult :=
  match env.echoRead with
  | Except.error _ => ([Ev.readEcho], MeasureResult.panics)
  | Except.ok true => ([Ev.readEcho], MeasureResult.err "Echo pin is already high")
  | Except.ok false =>
    match findWithin env.levels 10 timeoutUs with
    | none =>
        ([Ev.readEcho, Ev.setHigh, Ev.delay10, Ev.setLow, Ev.riseTimeout],
         MeasureResult.err "Timeout waiting for echo pin to go high")
    | some r =>
      match findWithin (fun t => ! env.levels t) (10 + r) timeoutUs with
      | none =>
          ([Ev.readEcho, Ev.setHigh, Ev.delay10, Ev.setLow, Ev.riseOk,
            Ev.fallTimeout],
           MeasureResult.err "Timeout waiting for echo pin to go low")
      | some f =>
        let startT := 10 + r
        let endT := startT + f
        ([Ev.readEcho, Ev.setHigh, Ev.delay10, Ev.setLow, Ev.riseOk,
          Ev.fallOk, Ev.distCalc],
         MeasureResult.ok (distance cfg
           (speed_of_sound_temperature_adjusted cfg temperature)
           (fDiv (some ((endT - startT : Nat) : ℝ)) (some 1000000))))

/-- Characterization of a resolved wait: the offset is within the budget,
the predicate holds there, and at no earlier instant of the wait. -/
theorem findWithin_eq_some_iff (p : Nat → Bool) (s b d : Nat) :
    findWithin p s b = some d ↔
      d ≤ b ∧ p (s + d) = true ∧ ∀ e, e < d → p (s + e) = false := by
  induction b generalizing s d with
  | zero =>
    simp only [findWithin]
    by_cases h : p s
    · rw [if_pos h]
      constructor
      · intro heq
        obtain rfl : d = 0 := (Option.some.injEq 0 d).mp heq |>.symm
        exact ⟨Nat.le_refl 0, by simpa using h, fun e he => absurd he (Nat.not_lt_zero e)⟩
      · rintro ⟨hd, _, _⟩
        obtain rfl : d = 0 := Nat.le_zero.mp hd
        rfl
    · rw [if_neg h]
      constructor
      · intro heq
        exact absurd heq (by simp)
      · rintro ⟨hd, hp, _⟩
        obtain rfl : d = 0 := Nat.le_zero.mp hd
        rw [Nat.add_zero] at hp
        exact absurd hp h
  | succ b ih =>
    simp only [findWithin]
    by_cases h : p s
    · rw [if_pos h]
      constructor
      · intro heq
        obtain rfl : d = 0 := (Option.some.injEq 0 d).mp heq |>.symm
        exact ⟨Nat.zero_le _, by simpa using h, fun e he => absurd he (Nat.not_lt_zero e)⟩
      · rintro ⟨hd, hp, hmin⟩
        rcases Nat.eq_zero_or_pos d with rfl | hdpos
        · rfl
        · have h0 := hmin 0 hdpos
          rw [Nat.add_zero] at h0
          rw [h0] at h
          exact absurd h (by simp)
    · rw [if_neg h]
      have hfalse : p s = false := Bool.not_eq_true _ |>.mp h
      constructor
      · intro heq
        rcases Option.map_eq_some'.mp heq with ⟨d', hd', rfl⟩
        rcases (ih (s + 1) d').mp hd' with ⟨hle, hp, hmin⟩
        refine ⟨Nat.succ_le_succ hle, ?_, ?_⟩
        · have harg : s + 1 + d' = s + (d' + 1) := by omega
          rw [harg] at hp
          exact hp
        · intro e he
          rcases e with _ | e'
          · rw [Nat.add_zero]
            exact hfalse
          · have harg : s + 1 + e' = s + (e' + 1) := by omega
            have := hmin e' (by omega)
            rw [harg] at this
            exact this
      · rintro ⟨hd, hp, hmin⟩
        rcases d with _ | d'
        · rw [Nat.add_zero] at hp
          rw [hp] at hfalse
          exact absurd hfalse (by simp)
        · have hd' : findWithin p (s + 1) b = some d' := by
            refine (ih (s + 1) d').mpr ⟨by omega, ?_, ?_⟩
            · have harg : s + 1 + d' = s + (d' + 1) := by omega
              rw [harg]
              exact hp
            · intro e he
              have harg : s + 1 + e = s + (e + 1) := by omega
              rw [harg]
              exact hmin (e + 1) (by omega)
          rw [hd']
          rfl

/-- Characterization of a timed-out wait: the predicate holds at no
instant within the budget. -/
theorem findWithin_eq_none_iff (p : Nat → Bool) (s b : Nat) :
    findWithin p s b = none ↔ ∀ d, d ≤ b → p (s + d) = false := by
  induction b generalizing s with
  | zero =>
    simp only [findWithin]
    by_cases h : p s
    · rw [if_pos h]
      constructor
      · intro heq
        exact absurd heq (by simp)
      · intro hall
        have := hall 0 (Nat.le_refl 0)
        rw [Nat.add_zero] at this
        rw [this] at h
        exact absurd h (by simp)
    · rw [if_neg h]
      constructor
      · intro _ d hd
        obtain rfl : d = 0 := Nat.le_zero.mp hd
        rw [Nat.add_zero]
        exact Bool.not_eq_true _ |>.mp h
      · intro _
        rfl
  | succ b ih =>
    simp only [findWithin]
    by_cases h : p s
    · rw [if_pos h]
      constructor
      · intro heq
        exact absurd heq (by simp)
      · intro hall
        have := hall 0 (Nat.zero_le _)
        rw [Nat.add_zero] at this
        rw [this] at h
        exact absurd h (by simp)
    · rw [if_neg h]
      rw [Option.map_eq_none']
      rw [ih (s + 1)]
      constructor
      · intro hall d hd
        rcases d with _ | d'
        · rw [Nat.add_zero]
          exact Bool.not_eq_true _ |>.mp h
        · have harg : s + 1 + d' = s + (d' + 1) := by omega
          rw [← harg]
          exact hall d' (by omega)
      · intro hall d hd
        have harg : s + 1 + d = s + (d + 1) := by omega
        rw [harg]
        exact hall (d + 1) (by omega)

/-- Exhaustive shape analysis of one `measure` call: exactly five outcomes
are possible, each fixing the trace and the result. -/
theorem measure_cases (cfg : Config) (env : Env) (tC : F64) :
    (∃ e, env.echoRead = Except.error e ∧
       measure cfg env tC = ([Ev.readEcho], MeasureResult.panics)) ∨
    (env.echoRead = Except.ok true ∧
       measure cfg env tC =
         ([Ev.readEcho], MeasureResult.err "Echo pin is already high")) ∨
    (env.echoRead = Except.ok false ∧
       findWithin env.levels 10 timeoutUs = none ∧
       measure cfg env tC =
         ([Ev.readEcho, Ev.setHigh, Ev.delay10, Ev.setLow, Ev.riseTimeout],
          MeasureResult.err "Timeout waiting for echo pin to go high")) ∨
    (∃ r, env.echoRead = Except.ok false ∧
       findWithin env.levels 10 timeoutUs = some r ∧
       findWithin (fun t => ! env.levels t) (10 + r) timeoutUs = none ∧
       measure cfg env tC =
         ([Ev.readEcho, Ev.setHigh, Ev.delay10, Ev.setLow, Ev.riseOk,
           Ev.fallTimeout],
          MeasureResult.err "Timeout waiting for echo pin to go low")) ∨
    (∃ r f, env.echoRead = Except.ok false ∧
       findWithin env.levels 10 timeoutUs = some r ∧
       findWithin (fun t => ! env.levels t) (10 + r) timeoutUs = some f ∧
       measure cfg env tC =
         ([Ev.readEcho, Ev.setHigh, Ev.delay10, Ev.setLow, Ev.riseOk,
           Ev.fallOk, Ev.distCalc],
          MeasureResult.ok (distance cfg
            (speed_of_sound_temperature_adjusted cfg tC)
            (fDiv (some ((10 + r + f - (10 + r) : Nat) : ℝ))
              (some 1000000))))) := by
  rcases h : env.echoRead with e | b
  · exact Or.inl ⟨e, rfl, by simp [measure, h]⟩
  · rcases b with _ | _
    · rcases hr : findWithin env.levels 10 timeoutUs with _ | r
      · exact Or.inr (Or.inr (Or.inl ⟨rfl, rfl, by simp [measure, h, hr]⟩))
      · rcases hf : findWithin (fun t => ! env.levels t) (10 + r) timeoutUs
          with _ | f
        · exact Or.inr (Or.inr (Or.inr (Or.inl
            ⟨r, rfl, rfl, hf, by simp [measure, h, hr, hf]⟩)))
        · exact Or.inr (Or.inr (Or.inr (Or.inr
            ⟨r, f, rfl, rfl, hf, by simp [measure, h, hr, hf]⟩)))
    · exact Or.inr (Or.inl ⟨rfl, by simp [measure, h]⟩)

/-- Default configuration used for concrete instances. -/
def cfg1 : Config := Config.mk DistanceUnit.Centimeters TemperatureUnit.Celsius

/-- Environment whose initial echo read reports the line high. -/
def envHighStart : Env := Env.mk (Except.ok true) (fun _ => false) false false

/-- Environment whose initial echo read fails. -/
def envReadFails : Env := Env.mk (Except.error ()) (fun _ => false) false false

/-- Echo line that is high exactly on microseconds 5 to 11: it is already
high when the rise wait starts at instant 10. -/
def levelsQuick : Nat → Bool := fun n => decide (5 ≤ n) && decide (n < 12)

/-- Environment with `levelsQuick` and a successful low echo read. -/
def envQuick : Env := Env.mk (Except.ok false) levelsQuick false false

/-- Echo line that is high exactly on microseconds 11 and 12: it rises
after the rise wait starts. -/
def levelsLate : Nat → Bool := fun n => decide (11 ≤ n) && decide (n < 13)

/-- Environment with `levelsLate` and a successful low echo read. -/
def envLate : Env := Env.mk (Except.ok false) levelsLate false false

/-- C1: every failure of the precondition check, the rise wait or the fall
wait short-circuits `measure` with its own distinct reason, and the
distance calculation is invoked if and only if both waits succeed, which
is also exactly when `measure` returns a distance value. -/
theorem measure_short_circuits_dist_iff_success
    (cfg : Config) (env : Env) (tC : F64) :
    (Ev.distCalc ∈ (measure cfg env tC).1 ↔
       Ev.riseOk ∈ (measure cfg env tC).1 ∧
       Ev.fallOk ∈ (measure cfg env tC).1) ∧
    ((∃ d, (measure cfg env tC).2 = MeasureResult.ok d) ↔
       Ev.distCalc ∈ (measure cfg env tC).1) ∧
    (Ev.riseTimeout ∈ (measure cfg env tC).1 →
       (measure cfg env tC).2 =
         MeasureResult.err "Timeout waiting for echo pin to go high") ∧
    (Ev.fallTimeout ∈ (measure cfg env tC).1 →
       (measure cfg env tC).2 =
         MeasureResult.err "Timeout waiting for echo pin to go low") ∧
    (env.echoRead = Except.ok true →
       (measure cfg env tC).2 =
         MeasureResult.err "Echo pin is already high") ∧
    ("Echo pin is already high" ≠ "Timeout waiting for echo pin to go high" ∧
     "Echo pin is already high" ≠ "Timeout waiting for echo pin to go low" ∧
     ("Timeout waiting for echo pin to go high" : String) ≠
       "Timeout waiting for echo pin to go low") := by
  rcases measure_cases cfg env tC with
    ⟨e, he, hm⟩ | ⟨he, hm⟩ | ⟨he, hr, hm⟩ | ⟨r, he, hr, hf, hm⟩ |
    ⟨r, f, he, hr, hf, hm⟩ <;>
    simp [hm, he]

/-- Witness for C1 at a concrete environment with a pre-asserted echo. -/
theorem measure_short_circuits_dist_iff_success_witness :
    (measure cfg1 envHighStart none).2 =
      MeasureResult.err "Echo pin is already high" :=
  (measure_short_circuits_dist_iff_success cfg1 envHighStart none).2.2.2.2.1 rfl

/-- C2: if the echo line reads high at the start, `measure` returns the
precondition error without driving the trigger and without either wait. -/
theorem measure_preasserted_no_trigger (cfg : Config) (env : Env) (tC : F64)
    (h : env.echoRead = Except.ok true) :
    (measure cfg env tC).2 = MeasureResult.err "Echo pin is already high" ∧
    (measure cfg env tC).1 = [Ev.readEcho] ∧
    Ev.setHigh ∉ (measure cfg env tC).1 ∧
    Ev.setLow ∉ (measure cfg env tC).1 ∧
    Ev.riseOk ∉ (measure cfg env tC).1 ∧
    Ev.riseTimeout ∉ (measure cfg env tC).1 ∧
    Ev.fallOk ∉ (measure cfg env tC).1 ∧
    Ev.fallTimeout ∉ (measure cfg env tC).1 := by
  simp [measure, h]

/-- Witness for C2 at a concrete environment with a pre-asserted echo. -/
theorem measure_preasserted_no_trigger_witness :
    (measure cfg1 envHighStart none).1 = [Ev.readEcho] ∧
    Ev.setHigh ∉ (measure cfg1 envHighStart none).1 := by
  have h := measure_preasserted_no_trigger cfg1 envHighStart none rfl
  exact ⟨h.2.1, h.2.2.1⟩

/-- C4: `measure` always terminates with one of its three result shapes;
when the precondition passes, a rise timeout and a fall timeout yield
their own errors, and both waits are bounded by the same constant
two-second budget, the fall budget being independent of how long the rise
took. -/
theorem measure_independent_timeouts (cfg : Config) (env : Env) (tC : F64) :
    ((measure cfg env tC).2 = MeasureResult.panics ∨
     (∃ m, (measure cfg env tC).2 = MeasureResult.err m) ∨
     (∃ d, (measure cfg env tC).2 = MeasureResult.ok d)) ∧
    (env.echoRead = Except.ok false →
      (findWithin env.levels 10 timeoutUs = none →
        (measure cfg env tC).2 =
          MeasureResult.err "Timeout waiting for echo pin to go high") ∧
      (∀ r, findWithin env.levels 10 timeoutUs = some r →
        r ≤ timeoutUs ∧
        (findWithin (fun t => ! env.levels t) (10 + r) timeoutUs = none →
          (measure cfg env tC).2 =
            MeasureResult.err "Timeout waiting for echo pin to go low") ∧
        (∀ f, findWithin (fun t => ! env.levels t) (10 + r) timeoutUs
            = some f →
          f ≤ timeoutUs ∧ Ev.distCalc ∈ (measure cfg env tC).1))) := by
  constructor
  · rcases measure_cases cfg env tC with
      ⟨e, he, hm⟩ | ⟨he, hm⟩ | ⟨he, hr, hm⟩ | ⟨r, he, hr, hf, hm⟩ |
      ⟨r, f, he, hr, hf, hm⟩
    · exact Or.inl (by rw [hm])
    · exact Or.inr (Or.inl ⟨_, by rw [hm]⟩)
    · exact Or.inr (Or.inl ⟨_, by rw [hm]⟩)
    · exact Or.inr (Or.inl ⟨_, by rw [hm]⟩)
    · exact Or.inr (Or.inr ⟨_, by rw [hm]⟩)
  · intro he
    refine ⟨fun hr => by simp [measure, he, hr], fun r hr => ?_⟩
    refine ⟨((findWithin_eq_some_iff _ _ _ _).mp hr).1,
      fun hf => by simp [measure, he, hr, hf], fun f hf => ?_⟩
    refine ⟨((findWithin_eq_some_iff _ _ _ _).mp hf).1, ?_⟩
    simp [measure, he, hr, hf]

/-- Witness for C4: the environment whose line rises at microsecond 11 and
falls at 13 resolves both waits within their budgets. -/
theorem measure_independent_timeouts_witness :
    1 ≤ timeoutUs ∧ Ev.distCalc ∈ (measure cfg1 envLate none).1 := by
  have h := (measure_independent_timeouts cfg1 envLate none).2 rfl
  have h1 := h.2 1 (by decide)
  exact ⟨h1.1, (h1.2.2 2 (by decide)).2⟩

/-- C8: when the precondition passes, the trace starts with the trigger
pulse (set high, hold 10 microseconds, set low) before any wait event,
and the result is unchanged by trigger drive failures, which the source
discards. -/
theorem measure_pulse_shape_ignores_drive_failures
    (cfg : Config) (env : Env) (tC : F64)
    (h : env.echoRead = Except.ok false) :
    (measure cfg env tC).1.take 4 =
      [Ev.readEcho, Ev.setHigh, Ev.delay10, Ev.setLow] ∧
    (∀ bh bl, measure cfg (Env.mk env.echoRead env.levels bh bl) tC =
      measure cfg env tC) := by
  constructor
  · rcases hr : findWithin env.levels 10 timeoutUs with _ | r
    · simp [measure, h, hr]
    · rcases hf : findWithin (fun t => ! env.levels t) (10 + r) timeoutUs
        with _ | f
      · simp [measure, h, hr, hf]
      · simp [measure, h, hr, hf]
  · intro bh bl
    rfl

/-- Witness for C8 at a concrete environment, with both drive calls
failing. -/
theorem measure_pulse_shape_ignores_drive_failures_witness :
    (measure cfg1 envQuick none).1.take 4 =
      [Ev.readEcho, Ev.setHigh, Ev.delay10, Ev.setLow] ∧
    measure cfg1 (Env.mk envQuick.echoRead envQuick.levels true true) none =
      measure cfg1 envQuick none := by
  have h := measure_pulse_shape_ignores_drive_failures cfg1 envQuick none rfl
  exact ⟨h.1, h.2 true true⟩

/-- C9: a failed echo-pin read at the start of `measure` panics (unwrap of
None) rather than returning any failure value. -/
theorem measure_panics_on_echo_read_error
    (cfg : Config) (env : Env) (tC : F64) (e : Unit)
    (h : env.echoRead = Except.error e) :
    (measure cfg env tC).2 = MeasureResult.panics ∧
    (∀ msg, (measure cfg env tC).2 ≠ MeasureResult.err msg) ∧
    (∀ d, (measure cfg env tC).2 ≠ MeasureResult.ok d) := by
  simp [measure, h]

/-- Witness for C9 at a concrete environment whose echo read fails. -/
theorem measure_panics_on_echo_read_error_witness :
    (measure cfg1 envReadFails none).2 = MeasureResult.panics :=
  (measure_panics_on_echo_read_error cfg1 envReadFails none () rfl).1

/-- Temperature normalization to Celsius, stated as the spec words it:
identity for Celsius input, (t minus 32) times 5/9 for Fahrenheit. -/
noncomputable def toCelsius : TemperatureUnit → F64 → F64
  | TemperatureUnit.Celsius, t => t
  | TemperatureUnit.Fahrenheit, t =>
      fDiv (fMul (fSub t (some 32)) (some 5)) (some 9)

/-- C5: the speed-of-sound computation first normalizes the temperature to
Celsius according to the configured unit and then applies
331.5 times sqrt of (1 + celsius / 273.15); a Fahrenheit input of 32
yields the same speed as a Celsius input of 0. -/
theorem speed_of_sound_normalizes_then_sqrt (cfg : Config) (t : F64) :
    speed_of_sound_temperature_adjusted cfg t =
      fMul (some 331.5)
        (fSqrt (fAdd (some 1)
          (fDiv (toCelsius cfg.temperature_unit t) (some 273.15)))) ∧
    toCelsius TemperatureUnit.Celsius t = t ∧
    (∀ x : ℝ, toCelsius TemperatureUnit.Fahrenheit (some x) =
      some ((x - 32) * 5 / 9)) ∧
    (∀ du du', speed_of_sound_temperature_adjusted
        (Config.mk du TemperatureUnit.Fahrenheit) (some 32) =
      speed_of_sound_temperature_adjusted
        (Config.mk du' TemperatureUnit.Celsius) (some 0)) := by
  refine ⟨?_, rfl, fun x => rfl, fun du du' => ?_⟩
  · rcases cfg with ⟨du, tu⟩
    cases tu <;> rfl
  · have h0 : ((32 : ℝ) - 32) * 5 / 9 = 0 := by norm_num
    simp only [speed_of_sound_temperature_adjusted, fSub, fMul, fDiv, fAdd,
      h0]

/-- C6: the distance function computes speed times 100 times duration,
halved, in centimeters, dividing further by 2.54 for inches; and any
finite speed with a zero duration gives exactly zero distance. -/
theorem distance_formula_and_zero (tu : TemperatureUnit) (s d : F64) :
    distance (Config.mk DistanceUnit.Centimeters tu) s d =
      fDiv (fMul (fMul s (some 100)) d) (some 2) ∧
    distance (Config.mk DistanceUnit.Inches tu) s d =
      fDiv (fDiv (fMul (fMul s (some 100)) d) (some 2)) (some 2.54) ∧
    (∀ (x : ℝ) (cfg : Config), distance cfg (some x) (some 0) = some 0) := by
  refine ⟨rfl, rfl, fun x cfg => ?_⟩
  rcases cfg with ⟨du, tu'⟩
  cases du <;> simp [distance, fMul, fDiv]

/-- C7: for nonnegative speed and duration, distance is monotonically
non-decreasing in both the speed and the duration argument, for either
distance unit. -/
theorem distance_monotone (cfg : Config) (s s' d d' : ℝ)
    (hs : 0 ≤ s) (hd : 0 ≤ d) (hss : s ≤ s') (hdd : d ≤ d') :
    fLe (distance cfg (some s) (some d)) (distance cfg (some s') (some d')) := by
  have hs' : (0 : ℝ) ≤ s' := hs.trans hss
  have hmul : s * 100 * d ≤ s' * 100 * d' := by
    apply mul_le_mul _ hdd hd
    · positivity
    · apply mul_le_mul_of_nonneg_right hss
      norm_num
  rcases cfg with ⟨du, tu⟩
  cases du
  · show s * 100 * d / 2 ≤ s' * 100 * d' / 2
    exact (div_le_div_iff_of_pos_right (by norm_num)).mpr hmul
  · show s * 100 * d / 2 / 2.54 ≤ s' * 100 * d' / 2 / 2.54
    apply (div_le_div_iff_of_pos_right (by norm_num)).mpr
    exact (div_le_div_iff_of_pos_right (by norm_num)).mpr hmul

/-- Witness for C7 at concrete speeds 1 and 2 and durations 0 and 1. -/
theorem distance_monotone_witness :
    fLe (distance cfg1 (some 1) (some 0)) (distance cfg1 (some 2) (some 1)) :=
  distance_monotone cfg1 1 2 0 1 (by norm_num) (by norm_num) (by norm_num)
    (by norm_num)

/-- Distance of a NaN speed is NaN for every duration and configuration. -/
theorem distance_none (cfg : Config) (dur : F64) :
    distance cfg none dur = none := by
  rcases cfg with ⟨du, tu⟩
  cases du <;> cases dur <;> rfl

/-- Speed of sound is NaN whenever the normalized Celsius temperature is
below absolute zero, because the square root argument is negative. -/
theorem speed_nan_of_subzero (cfg : Config) (t tc : ℝ)
    (htc : toCelsius cfg.temperature_unit (some t) = some tc)
    (hcold : tc < -273.15) :
    speed_of_sound_temperature_adjusted cfg (some t) = none := by
  have hneg : (1 : ℝ) + tc / 273.15 < 0 := by
    have hq : tc / 273.15 < -1 := by
      rw [div_lt_iff₀ (by norm_num : (0 : ℝ) < 273.15)]
      linarith
    linarith
  rcases cfg with ⟨du, tu⟩
  cases tu
  · have htt : t = tc := by simpa [toCelsius] using htc
    subst htt
    show fMul (some 331.5)
      (fSqrt (fAdd (some 1) (fDiv (some t) (some 273.15)))) = none
    rw [show fAdd (some 1) (fDiv (some t) (some 273.15)) =
      some (1 + t / 273.15) from rfl]
    simp only [fSqrt]
    rw [if_pos hneg]
    rfl
  · have htt : (t - 32) * 5 / 9 = tc := by simpa [toCelsius, fSub, fMul, fDiv] using htc
    show fMul (some 331.5)
      (fSqrt (fAdd (some 1)
        (fDiv (some ((t - 32) * 5 / 9)) (some 273.15)))) = none
    rw [htt]
    rw [show fAdd (some 1) (fDiv (some tc) (some 273.15)) =
      some (1 + tc / 273.15) from rfl]
    simp only [fSqrt]
    rw [if_pos hneg]
    rfl

/-- C10: the temperature is never validated; when the normalized Celsius
temperature is below minus 273.15 and the edge sequence succeeds with a
positive duration, `measure` returns NaN as its distance rather than an
error. -/
theorem measure_nan_on_subzero_kelvin (cfg : Config) (env : Env)
    (t tc : ℝ) (r f : Nat)
    (he : env.echoRead = Except.ok false)
    (hr : findWithin env.levels 10 timeoutUs = some r)
    (hf : findWithin (fun u => ! env.levels u) (10 + r) timeoutUs = some f)
    (hfpos : 0 < f)
    (htc : toCelsius cfg.temperature_unit (some t) = some tc)
    (hcold : tc < -273.15) :
    (measure cfg env (some t)).2 = MeasureResult.ok none := by
  have hspeed := speed_nan_of_subzero cfg t tc htc hcold
  simp [measure, he, hr, hf, hspeed, distance_none]

/-- Witness for C10: the late-rising environment with a Celsius
temperature of minus 300. -/
theorem measure_nan_on_subzero_kelvin_witness :
    (measure cfg1 envLate (some (-300))).2 = MeasureResult.ok none := by
  exact measure_nan_on_subzero_kelvin cfg1 envLate (-300) (-300) 1 2 rfl
    (by decide) (by decide) (by norm_num) rfl (by norm_num)

/-- Modelled from the spec: wait_for_rising_edge suspends until the line
transitions low to high, so it resolves only at an instant whose level is
high while the level one microsecond earlier was low.  The repository
source (src/lib.rs line 103) instead calls the level wait wait_for_high;
this definition follows the spec wording for comparison. -/
def findRisingWithin (levels : Nat → Bool) (s b : Nat) : Option Nat :=
  findWithin (fun t => levels t && ! levels (t - 1)) s b

/-- Modelled from the spec: wait_for_falling_edge suspends until the line
transitions high to low; the source (src/lib.rs line 109) instead calls
the level wait wait_for_low. -/
def findFallingWithin (levels : Nat → Bool) (s b : Nat) : Option Nat :=
  findWithin (fun t => ! levels t && levels (t - 1)) s b

/-- Modelled from the spec: the variant of `measure` that the spec's
edge-transition sentence describes, identical to `measure` except that
both waits observe edge transitions instead of levels. -/
noncomputable def measureEdge (cfg : Config) (env : Env) (temperature : F64) :
    List Ev × MeasureResult :=
  match env.echoRead with
  | Except.error _ => ([Ev.readEcho], MeasureResult.panics)
  | Except.ok true => ([Ev.readEcho], MeasureResult.err "Echo pin is already high")
  | Except.ok false =>
    match findRisingWithin env.levels 10 timeoutUs with
    | none =>
        ([Ev.readEcho, Ev.setHigh, Ev.delay10, Ev.setLow, Ev.riseTimeout],
         MeasureResult.err "Timeout waiting for echo pin to go high")
    | some r =>
      match findFallingWithin env.levels (10 + r) timeoutUs with
      | none =>
          ([Ev.readEcho, Ev.setHigh, Ev.delay10, Ev.setLow, Ev.riseOk,
            Ev.fallTimeout],
           MeasureResult.err "Timeout waiting for echo pin to go low")
      | some f =>
        let startT := 10 + r
        let endT := startT + f
        ([Ev.readEcho, Ev.setHigh, Ev.delay10, Ev.setLow, Ev.riseOk,
          Ev.fallOk, Ev.distCalc],
         MeasureResult.ok (distance cfg
           (speed_of_sound_temperature_adjusted cfg temperature)
           (fDiv (some ((endT - startT : Nat) : ℝ)) (some 1000000))))

/-- Shape of a `measure` call whose two level waits both resolve. -/
theorem measure_eq_of_waits (cfg : Config) (env : Env) (tC : F64) (r f : Nat)
    (he : env.echoRead = Except.ok false)
    (hr : findWithin env.levels 10 timeoutUs = some r)
    (hf : findWithin (fun t => ! env.levels t) (10 + r) timeoutUs = some f) :
    measure cfg env tC =
      ([Ev.readEcho, Ev.setHigh, Ev.delay10, Ev.setLow, Ev.riseOk,
        Ev.fallOk, Ev.distCalc],
       MeasureResult.ok (distance cfg
         (speed_of_sound_temperature_adjusted cfg tC)
         (fDiv (some ((10 + r + f - (10 + r) : Nat) : ℝ)) (some 1000000)))) := by
  simp [measure, he, hr, hf]

/-- Shape of a `measureEdge` call whose rising-edge wait times out. -/
theorem measureEdge_eq_of_rise_none (cfg : Config) (env : Env) (tC : F64)
    (he : env.echoRead = Except.ok false)
    (hr : findRisingWithin env.levels 10 timeoutUs = none) :
    measureEdge cfg env tC =
      ([Ev.readEcho, Ev.setHigh, Ev.delay10, Ev.setLow, Ev.riseTimeout],
       MeasureResult.err "Timeout waiting for echo pin to go high") := by
  simp [measureEdge, he, hr]

/-- Counterexample to C3: on the line that is already high when the rise
wait starts (high on microseconds 5 to 11), the code's level wait resolves
immediately and the measurement succeeds, while an edge-observing wait
would find no low-to-high transition and time out; so the waits of
`measure` do not observe edge transitions. -/
theorem measure_waits_not_edge_cex :
    Ev.distCalc ∈ (measure cfg1 envQuick none).1 ∧
    (measureEdge cfg1 envQuick none).2 =
      MeasureResult.err "Timeout waiting for echo pin to go high" ∧
    (measure cfg1 envQuick none).2 ≠ (measureEdge cfg1 envQuick none).2 := by
  have hrise : findWithin envQuick.levels 10 timeoutUs = some 0 := by decide
  have hfall : findWithin (fun t => ! envQuick.levels t) (10 + 0) timeoutUs
      = some 2 := by decide
  have hedge : findRisingWithin envQuick.levels 10 timeoutUs = none := by
    rw [findRisingWithin, findWithin_eq_none_iff]
    intro d _
    rcases Nat.lt_or_ge d 2 with hd | hd
    · interval_cases d <;> rfl
    · have h12 : ¬ (10 + d < 12) := by omega
      simp [envQuick, levelsQuick, decide_eq_false h12]
  have hm := measure_eq_of_waits cfg1 envQuick none 0 2 rfl hrise hfall
  have hme := measureEdge_eq_of_rise_none cfg1 envQuick none rfl hedge
  refine ⟨?_, ?_, ?_⟩
  · rw [hm]
    simp
  · rw [hme]
  · rw [hm, hme]
    simp

/-- C3 amended: each wait of `measure` is a level wait bounded by its
budget: the rise wait resolves at the first instant from its start at
which the line reads high (immediately if it is already high), and the
fall wait at the first instant from its own start at which the line reads
low, with no requirement of a transition. -/
theorem measure_waits_level_semantics (cfg : Config) (env : Env) (tC : F64)
    (r f : Nat)
    (he : env.echoRead = Except.ok false)
    (hr : findWithin env.levels 10 timeoutUs = some r)
    (hf : findWithin (fun t => ! env.levels t) (10 + r) timeoutUs = some f) :
    (env.levels (10 + r) = true ∧ ∀ e, e < r → env.levels (10 + e) = false) ∧
    (env.levels (10 + r + f) = false ∧
      ∀ e, e < f → env.levels (10 + r + e) = true) ∧
    Ev.distCalc ∈ (measure cfg env tC).1 := by
  obtain ⟨-, hp, hmin⟩ := (findWithin_eq_some_iff _ _ _ _).mp hr
  obtain ⟨-, hp', hmin'⟩ := (findWithin_eq_some_iff _ _ _ _).mp hf
  refine ⟨⟨hp, hmin⟩, ⟨?_, ?_⟩, ?_⟩
  · simpa using hp'
  · intro e he'
    simpa using hmin' e he'
  · simp [measure, he, hr, hf]

/-- Witness for the amended C3 at the late-rising environment: the rise
wait resolves at offset 1, where the line first reads high. -/
theorem measure_waits_level_semantics_witness :
    envLate.levels (10 + 1) = true ∧
    Ev.distCalc ∈ (measure cfg1 envLate none).1 := by
  have h := measure_waits_level_semantics cfg1 envLate none 1 2 rfl
    (by decide) (by decide)
  exact ⟨h.1.1, h.2.2⟩

end Hcsr04
